import Mathlib

/-!
Shallow embedding of the progress/session persistence model of the
jupyter-lab-progress repository (`jupyter_lab_progress/progress.py`) and
of the auto-grading aggregation of `jupyter_lab_progress/validator.py`.

Modelling conventions:
* Python dicts (which preserve insertion order) are embedded as association
  lists `List (String × β)` with unique keys; in-place value updates are
  `updateA`, membership tests are `lookupA`.
* Python floats are embedded as rationals (`ℚ`).  The JSON round-trip of
  the primitive values stored in a step record (bools, numbers, strings,
  null, lists of such) is exact in the source, so serialisation of these
  values is modelled as the identity on the structured data.
* `datetime` instants are embedded as rationals (seconds); `isoformat`
  renders an instant as a string.  `datetime.fromisoformat` is exact on
  `isoformat` output in the source, so a parsed timestamp is modelled as
  the instant itself.
* `datetime.now()` is nondeterministic input: every operation that reads
  the clock takes the current instant `now` as an explicit argument.
* I/O side effects that do not change tracker state (HTML rendering,
  printing) are dropped.  Writing the progress file is modelled by
  `save_progress` returning the written data; the filesystem seen by
  `resume` and the constructor is an explicit association list from paths
  to file contents.
* A shell command's outcome (`subprocess.run`) is external input, modelled
  by the `ShellOutcome` type; a user-supplied checker callable's behaviour
  when invoked is external input, modelled by `CheckerOutcome`.
-/

namespace JLab

/-- A primitive Python value as it appears in an analytics-event field. -/
inductive PyVal where
  | pnone : PyVal
  | pbool : Bool → PyVal
  | pnum : ℚ → PyVal
  | pstr : String → PyVal
  deriving DecidableEq

/-- A checkpoint record appended by `mark_partial` (progress.py lines 121-127). -/
structure Checkpoint where
  name : String
  progress : ℚ
  timestamp : String
  deriving DecidableEq

/-- One step's state record (progress.py lines 42-50). -/
structure StepState where
  completed : Bool
  timestamp : Option String
  attempts : ℕ
  score : Option ℚ
  notes : String
  partial_progress : ℚ
  checkpoints : List Checkpoint
  deriving DecidableEq

/-- The zero-state step record used at initialisation and by `reset_step`. -/
def freshStep : StepState :=
  { completed := false, timestamp := none, attempts := 0, score := none,
    notes := "", partial_progress := 0, checkpoints := [] }

/-- An analytics event (progress.py `_record_analytics_event`, lines 438-446):
the five fixed fields plus the call's keyword arguments. -/
structure Event where
  timestamp : String
  session_id : String
  student_id : String
  lab_name : String
  event_type : String
  step_name : Option String
  extra : List (String × PyVal)
  deriving DecidableEq

/-- Association-list lookup, the embedding of `d[k]` / `k in d` on a dict. -/
def lookupA {β : Type} : List (String × β) → String → Option β
  | [], _ => none
  | p :: rest, key => if p.1 = key then some p.2 else lookupA rest key

/-- Association-list value update, the embedding of an in-place update of
one key's value (keys and order are unchanged). -/
def updateA {β : Type} (l : List (String × β)) (key : String) (f : β → β) :
    List (String × β) :=
  l.map (fun p => if p.1 = key then (p.1, f p.2) else p)

/-- Python truthiness of an optional string: `None` and `""` are falsy. -/
def truthy : Option String → Bool
  | none => false
  | some s => decide (s ≠ "")

/-- `datetime.isoformat`: renders an instant as a string.  The rendering is
injective on instants, which is all the source relies on. -/
def isoformat (t : ℚ) : String :=
  toString t.num ++ "." ++ toString t.den

/-- `Optional[float]` rendered as an event-field value. -/
def optNum : Option ℚ → PyVal
  | none => PyVal.pnone
  | some q => PyVal.pnum q

/-- `Optional[str]` rendered as an event-field value. -/
def optStr : Option String → PyVal
  | none => PyVal.pnone
  | some s => PyVal.pstr s

/-- The in-memory state of a `LabProgress` tracker instance. -/
structure LabProgress where
  lab_name : String
  persist : Bool
  auto_save : Bool
  persist_file : String
  session_id : String
  student_id : String
  previous_session_id : Option String
  step_metadata : List (String × PyVal)
  analytics_data : List Event
  step_start_times : List (String × ℚ)
  steps : List (String × StepState)
  start_time : ℚ
  is_resumed : Bool
  deriving DecidableEq

namespace LabProgress

/-- `_record_analytics_event` (progress.py lines 428-447): appends one event
built from the clock, the session fields and the call's keyword arguments. -/
def record_analytics_event (t : LabProgress) (now : ℚ) (event_type : String)
    (step_name : Option String) (extra : List (String × PyVal)) : LabProgress :=
  { t with analytics_data := t.analytics_data ++
      [{ timestamp := isoformat now, session_id := t.session_id,
         student_id := t.student_id, lab_name := t.lab_name,
         event_type := event_type, step_name := step_name, extra := extra }] }

/-- `mark_done` (progress.py lines 77-107).  Unknown step: warning only, no
state change.  Known step: sets `completed`, `timestamp`, `score`
(unconditionally), `notes` (only when non-empty), then records a
`step_completed` event. -/
def mark_done (t : LabProgress) (now : ℚ) (step : String) (score : Option ℚ)
    (notes : String) : LabProgress :=
  match lookupA t.steps step with
  | none => t
  | some st =>
    let time_spent : Option ℚ := (lookupA t.step_start_times step).map (fun s0 => now - s0)
    let st' : StepState :=
      { st with completed := true, timestamp := some (isoformat now), score := score,
                notes := if notes ≠ "" then notes else st.notes }
    let t1 := { t with steps := updateA t.steps step (fun _ => st') }
    record_analytics_event t1 now "step_completed" (some step)
      [("score", optNum score), ("time_spent", optNum time_spent),
       ("notes", PyVal.pstr notes)]

/-- `mark_partial` (progress.py lines 109-141).  Unknown step: no-op.  Known
step: stores the clamped progress, optionally the notes, records the step
start time on first positive progress, appends a checkpoint carrying the raw
input progress when a non-empty checkpoint name is given, then records a
`partial_progress` event. -/
def mark_partial (t : LabProgress) (now : ℚ) (step : String) (progress : ℚ)
    (notes : String) (checkpoint_name : Option String) : LabProgress :=
  match lookupA t.steps step with
  | none => t
  | some st =>
    let st1 : StepState := { st with partial_progress := max 0 (min 1 progress) }
    let st2 : StepState := if notes ≠ "" then { st1 with notes := notes } else st1
    let sst : List (String × ℚ) :=
      if (lookupA t.step_start_times step).isNone ∧ 0 < progress
      then t.step_start_times ++ [(step, now)] else t.step_start_times
    let st3 : StepState :=
      if truthy checkpoint_name then
        { st2 with checkpoints := st2.checkpoints ++
            [{ name := checkpoint_name.getD "", progress := progress,
               timestamp := isoformat now }] }
      else st2
    let t1 := { t with steps := updateA t.steps step (fun _ => st3),
                       step_start_times := sst }
    record_analytics_event t1 now "partial_progress" (some step)
      [("progress", PyVal.pnum progress), ("checkpoint_name", optStr checkpoint_name),
       ("notes", PyVal.pstr notes)]

/-- `increment_attempts` (progress.py lines 143-155).  Unknown step: no-op.
Known step: increments the counter and records an `attempt` event. -/
def increment_attempts (t : LabProgress) (now : ℚ) (step : String) : LabProgress :=
  match lookupA t.steps step with
  | none => t
  | some _ =>
    let f : StepState → StepState := fun st => { st with attempts := st.attempts + 1 }
    let t1 := { t with steps := updateA t.steps step f }
    record_analytics_event t1 now "attempt" (some step) []

/-- `reset_step` (progress.py lines 157-171).  Unknown step: no-op.  Known
step: replaces the record with the zero state.  No analytics event is
recorded. -/
def reset_step (t : LabProgress) (step : String) : LabProgress :=
  match lookupA t.steps step with
  | none => t
  | some _ => { t with steps := updateA t.steps step (fun _ => freshStep) }

/-- `reset_all` (progress.py lines 173-176): `reset_step` over every key of
the registry in order. -/
def reset_all (t : LabProgress) : LabProgress :=
  (t.steps.map Prod.fst).foldl (fun acc k => reset_step acc k) t

/-- `get_completion_rate` (progress.py lines 178-181). -/
def get_completion_rate (t : LabProgress) : ℚ :=
  if t.steps = [] then 0
  else ((t.steps.filter (fun p => p.2.completed)).length : ℚ) / (t.steps.length : ℚ) * 100

/-- `get_incomplete_steps` (progress.py lines 361-363). -/
def get_incomplete_steps (t : LabProgress) : List String :=
  (t.steps.filter (fun p => ¬ p.2.completed)).map Prod.fst

/-- `get_current_step` (progress.py lines 365-368). -/
def get_current_step (t : LabProgress) : Option String :=
  t.get_incomplete_steps.head?

end LabProgress

/-- The parsed content of a progress file, i.e. the JSON object written by
`_save_progress` (progress.py lines 270-280).  JSON serialisation of these
values is exact in the source, so the file is modelled by its parse. -/
structure SavedData where
  lab_name : String
  steps : List (String × StepState)
  start_time : ℚ
  session_id : String
  student_id : String
  last_saved : ℚ
  step_metadata : List (String × PyVal)
  analytics_data : List Event
  step_start_times : List (String × ℚ)
  deriving DecidableEq

/-- The filesystem as the persistence layer sees it: the parsed content of
each existing file, keyed by path. -/
def FileSystem : Type := List (String × SavedData)

namespace LabProgress

/-- `_save_progress` (progress.py lines 268-282): the data written to the
progress file. -/
def save_progress (t : LabProgress) (now : ℚ) : SavedData :=
  { lab_name := t.lab_name, steps := t.steps, start_time := t.start_time,
    session_id := t.session_id, student_id := t.student_id, last_saved := now,
    step_metadata := t.step_metadata, analytics_data := t.analytics_data,
    step_start_times := t.step_start_times }

/-- `_load_progress` (progress.py lines 284-303) applied to a successfully
parsed file `d`: restores `steps`, `start_time`, `step_metadata`,
`analytics_data`, `step_start_times` and `student_id`, marks the session
resumed, and stores the file's `session_id` in `_previous_session_id`
(the tracker's own `_session_id` is not modified).  `lab_name` is not read. -/
def load_progress (t : LabProgress) (d : SavedData) : LabProgress :=
  { t with steps := d.steps, start_time := d.start_time, is_resumed := true,
           previous_session_id := some d.session_id,
           student_id := d.student_id,
           step_metadata := d.step_metadata,
           analytics_data := d.analytics_data,
           step_start_times := d.step_start_times }

/-- `str.lower()` on the ASCII lab names the source deals in, as a
character map. -/
def pyLower (s : String) : String :=
  String.mk (s.data.map Char.toLower)

/-- `.replace(' ', '_')`: the pattern is a single character, so the
replacement is a character map. -/
def replaceSpace (s : String) : String :=
  String.mk (s.data.map (fun c => if c = ' ' then '_' else c))

/-- The default persistence path derived from a lab name
(progress.py line 33 and line 327). -/
def defaultFile (lab_name : String) : String :=
  "." ++ replaceSpace (pyLower lab_name) ++ "_progress.json"

/-- `__init__` (progress.py lines 16-75) on an already-structured steps dict.
`now` is the clock at construction (giving `_session_id` and, after any load,
`start_time`: line 72 overwrites the loaded `start_time`); `student_id` is
the fresh random identifier of line 35; `fs` is the filesystem consulted at
line 61.  Display-only state is dropped. -/
def init (steps : List (String × StepState)) (lab_name : String) (persist : Bool)
    (persist_file : Option String) (auto_save : Bool)
    (step_metadata : List (String × PyVal)) (now : ℚ) (student_id : String)
    (fs : FileSystem) : LabProgress :=
  let pf : String :=
    match persist_file with
    | some p => if p ≠ "" then p else defaultFile lab_name
    | none => defaultFile lab_name
  let t0 : LabProgress :=
    { lab_name := lab_name, persist := persist, auto_save := auto_save,
      persist_file := pf, session_id := isoformat now, student_id := student_id,
      previous_session_id := none, step_metadata := step_metadata,
      analytics_data := [], step_start_times := [], steps := steps,
      start_time := now, is_resumed := false }
  let t1 : LabProgress :=
    if persist then
      match lookupA fs pf with
      | some d => load_progress t0 d
      | none => t0
    else t0
  { t1 with start_time := now }

/-- The failure conditions of `resume` (progress.py lines 317-330):
`ValueError` when no progress file can be resolved, `FileNotFoundError`
when the resolved path does not exist. -/
inductive ResumeError where
  | noProgressFile : ResumeError
  | fileNotFound : String → ResumeError
  deriving DecidableEq

/-- `resume` (progress.py lines 305-359).  `dotJsonFiles` is the result of
globbing the current directory for dot-prefixed json files; `fs` is the
filesystem; `now` and `student_id` feed the constructor of line 337. -/
def resume (lab_name persist_file : Option String) (dotJsonFiles : List String)
    (fs : FileSystem) (now : ℚ) (student_id : String) :
    Except ResumeError LabProgress :=
  let step1 : Except ResumeError (Option String) :=
    if ¬ truthy persist_file ∧ ¬ truthy lab_name then
      match dotJsonFiles with
      | [] => Except.error ResumeError.noProgressFile
      | f :: _ => Except.ok (some f)
    else Except.ok persist_file
  match step1 with
  | Except.error e => Except.error e
  | Except.ok pf1 =>
    let pf2 : String :=
      if truthy pf1 then pf1.getD "" else defaultFile (lab_name.getD "")
    match lookupA fs pf2 with
    | none => Except.error (ResumeError.fileNotFound pf2)
    | some d =>
      Except.ok (init d.steps d.lab_name true (some pf2) true [] now student_id fs)

end LabProgress

/-- `sub` occurs at the start of `s` (character lists). -/
def listStarts : List Char → List Char → Bool
  | _, [] => true
  | [], _ :: _ => false
  | a :: as, b :: bs => a = b && listStarts as bs

/-- `sub` occurs somewhere in `s` (character lists). -/
def listHas : List Char → List Char → Bool
  | [], sub => sub.isEmpty
  | s :: rest, sub => listStarts (s :: rest) sub || listHas rest sub

/-- The Python substring test `sub in s`. -/
def strContains (s sub : String) : Bool :=
  listHas s.data sub.data

/-- The outcome of one `subprocess.run` call as `run_shell_step` observes it
(progress.py lines 624-709): normal completion with exit code and captured
output, `TimeoutExpired`, or any other exception. -/
inductive ShellOutcome where
  | completed : Int → String → String → ShellOutcome
  | timedOut : ShellOutcome
  | raised : String → ShellOutcome
  deriving DecidableEq

namespace LabProgress

/-- `run_shell_step` (progress.py lines 591-709).  `outcome` is the observed
behaviour of the spawned process, `execution_time` its measured duration and
`cwd` the resolved working directory; display calls are dropped.  Returns
the new state and the boolean success indicator. -/
def run_shell_step (t : LabProgress) (now : ℚ) (step_name command : String)
    (expected_output : Option String) (timeout : ℚ) (auto_mark_complete : Bool)
    (outcome : ShellOutcome) (execution_time : ℚ) (cwd : String) :
    LabProgress × Bool :=
  let t :=
    if (lookupA t.step_start_times step_name).isNone
    then { t with step_start_times := t.step_start_times ++ [(step_name, now)] }
    else t
  match outcome with
  | ShellOutcome.completed rc out _err =>
    let success : Bool :=
      if truthy expected_output ∧ rc = 0
      then strContains out (expected_output.getD "")
      else decide (rc = 0)
    let t := record_analytics_event t now "shell_command" (some step_name)
      [("command", PyVal.pstr command), ("returncode", PyVal.pnum (rc : ℚ)),
       ("execution_time", PyVal.pnum execution_time),
       ("success", PyVal.pbool success), ("working_dir", PyVal.pstr cwd)]
    let t :=
      if success ∧ auto_mark_complete ∧ (lookupA t.steps step_name).isSome then
        mark_done t now step_name (some 100) "Shell command executed successfully"
      else if ¬ success ∧ (lookupA t.steps step_name).isSome then
        let f : StepState → StepState := fun st => { st with attempts := st.attempts + 1 }
        { t with steps := updateA t.steps step_name f }
      else t
    (t, success)
  | ShellOutcome.timedOut =>
    (record_analytics_event t now "shell_timeout" (some step_name)
      [("command", PyVal.pstr command), ("timeout", PyVal.pnum timeout)], false)
  | ShellOutcome.raised msg =>
    (record_analytics_event t now "shell_error" (some step_name)
      [("command", PyVal.pstr command), ("error", PyVal.pstr msg)], false)

/-- The command loop of `run_shell_sequence` (progress.py lines 864-887):
each command is run under the temporary step name `step_name ++ "_cmd_" ++ i`
with `auto_mark_complete` off; a failure stops the loop when `stop_on_error`
is set.  Returns the state, the all-successful flag and the success count. -/
def seq_loop (now : ℚ) (step_name : String) (stop_on_error : Bool) (timeout : ℚ)
    (cwd : String) :
    List (String × ShellOutcome) → ℕ → LabProgress → Bool → ℕ →
    LabProgress × Bool × ℕ
  | [], _, t, all_ok, count => (t, all_ok, count)
  | (cmd, oc) :: rest, i, t, all_ok, count =>
    let r := run_shell_step t now (step_name ++ "_cmd_" ++ toString i) cmd none
      timeout false oc 0 cwd
    if r.2 then
      seq_loop now step_name stop_on_error timeout cwd rest (i + 1) r.1 all_ok (count + 1)
    else if stop_on_error then (r.1, false, count)
    else seq_loop now step_name stop_on_error timeout cwd rest (i + 1) r.1 false count

/-- `run_shell_sequence` (progress.py lines 829-925).  `cmds` pairs each
command with its observed outcome.  After the loop: all successful and step
known marks the step done with score 100; otherwise, if the step is known,
increments its attempts and stores
`(successful_count / len(commands)) * 100` in `partial_progress`
(line 921, unclamped). -/
def run_shell_sequence (t : LabProgress) (now : ℚ) (step_name : String)
    (cmds : List (String × ShellOutcome)) (stop_on_error : Bool)
    (timeout_per_command : ℚ) (cwd : String) : LabProgress × Bool :=
  let r := seq_loop now step_name stop_on_error timeout_per_command cwd cmds 1 t true 0
  let t1 := r.1
  let all_ok := r.2.1
  let count := r.2.2
  let n := cmds.length
  let t2 :=
    if all_ok ∧ (lookupA t1.steps step_name).isSome then
      mark_done t1 now step_name (some 100)
        ("All " ++ toString n ++ " shell commands executed successfully")
    else if (lookupA t1.steps step_name).isSome then
      let f : StepState → StepState := fun st =>
        { st with attempts := st.attempts + 1,
                  partial_progress := ((count : ℚ) / (n : ℚ)) * 100 }
      { t1 with steps := updateA t1.steps step_name f }
    else t1
  (t2, all_ok)

end LabProgress

/-- The behaviour of a scoring rule's checker when `validate_with_score`
invokes it (validator.py lines 342-352): a callable returning a
`(success, score)` tuple, a callable returning a truth value, a
dictionary-based validation evaluating to a truth value, or a raised
exception (from the checker call or the dictionary validation). -/
inductive CheckerOutcome where
  | retTuple : Bool → ℚ → CheckerOutcome
  | retBool : Bool → CheckerOutcome
  | dictResult : Bool → CheckerOutcome
  | raises : String → CheckerOutcome
  deriving DecidableEq

/-- One scoring rule's record (validator.py `add_scoring_rule`,
lines 320-327). -/
structure ScoringRule where
  weight : ℚ
  checker : CheckerOutcome
  description : String
  partial_credit : Bool
  last_score : Option ℚ
  last_result : Option Bool
  deriving DecidableEq

/-- One record of `validation_history` (validator.py lines 364-369). -/
structure HistEntry where
  rule : String
  score : ℚ
  success : Bool
  timestamp : ℚ
  deriving DecidableEq

/-- The validator state the auto-grading path touches (validator.py
lines 26-27). -/
structure ValidatorState where
  scoring_rules : List (String × ScoringRule)
  validation_history : List HistEntry
  deriving DecidableEq

namespace LabValidator

/-- The `(success, score)` pair computed from a non-raising checker result
(validator.py lines 343-352). -/
def rawResult : CheckerOutcome → Bool × ℚ
  | CheckerOutcome.retTuple s sc => (s, sc)
  | CheckerOutcome.retBool s => (s, if s then 100 else 0)
  | CheckerOutcome.dictResult s => (s, if s then 100 else 0)
  | CheckerOutcome.raises _ => (false, 0)

/-- The score `validate_with_score` ends up with for a rule, as a function of
its checker behaviour and partial-credit flag: exceptions score 0, and
without partial credit the score collapses to 100/0 (lines 355-356, 373). -/
def scoreOf : CheckerOutcome → Bool → ℚ
  | CheckerOutcome.raises _, _ => 0
  | c, pc => if pc then (rawResult c).2 else if (rawResult c).1 then 100 else 0

/-- The success flag `validate_with_score` ends up with for a rule. -/
def succOf (c : CheckerOutcome) : Bool :=
  (rawResult c).1

/-- `validate_with_score` (validator.py lines 329-376).  Unknown rule:
`(False, 0)` with no state change.  Raising checker: records
`last_score = 0`, `last_result = False`, returns `(False, 0)`, appends no
history.  Otherwise stores the (partial-credit-adjusted) score and result
and appends a history entry. -/
def validate_with_score (v : ValidatorState) (now : ℚ) (rule_name : String) :
    ValidatorState × Bool × ℚ :=
  match lookupA v.scoring_rules rule_name with
  | none => (v, false, 0)
  | some rule =>
    match rule.checker with
    | CheckerOutcome.raises _ =>
      let f : ScoringRule → ScoringRule := fun r =>
        { r with last_score := some 0, last_result := some false }
      ({ v with scoring_rules := updateA v.scoring_rules rule_name f }, false, 0)
    | c =>
      let success := (rawResult c).1
      let score : ℚ :=
        if ¬ rule.partial_credit then (if success then 100 else 0)
        else (rawResult c).2
      let f : ScoringRule → ScoringRule := fun r =>
        { r with last_score := some score, last_result := some success }
      ({ v with scoring_rules := updateA v.scoring_rules rule_name f,
                validation_history := v.validation_history ++
                  [{ rule := rule_name, score := score, success := success,
                     timestamp := now }] },
       success, score)

/-- The rule loop of `run_auto_grading` (validator.py lines 428-446):
for each rule in registration order, runs `validate_with_score` and
accumulates `score * weight` and `weight`. -/
def grade_loop (now : ℚ) :
    List (String × ScoringRule) → ValidatorState → ℚ → ℚ →
    ValidatorState × ℚ × ℚ
  | [], v, total_score, total_weight => (v, total_score, total_weight)
  | (name, rule) :: rest, v, total_score, total_weight =>
    let r := validate_with_score v now name
    grade_loop now rest r.1 (total_score + r.2.2 * rule.weight)
      (total_weight + rule.weight)

/-- `run_auto_grading` (validator.py lines 403-469), reduced to the state and
the final score: `total_score / total_weight` when the total weight is
positive, else `0` (lines 448-451). -/
def run_auto_grading (v : ValidatorState) (now : ℚ) : ValidatorState × ℚ :=
  let r := grade_loop now v.scoring_rules v 0 0
  (r.1, if r.2.2 > 0 then r.2.1 / r.2.2 else 0)

end LabValidator

/-! ### Specification-side derived quantities for the grading aggregation -/

/-- The fields of a scoring rule that determine its score and weight — the
part `validate_with_score` never mutates. -/
def ruleCore (r : ScoringRule) : ℚ × CheckerOutcome × Bool :=
  (r.weight, r.checker, r.partial_credit)

/-- An association list of scoring rules, reduced to its immutable cores. -/
def coreList (l : List (String × ScoringRule)) : List (String × (ℚ × CheckerOutcome × Bool)) :=
  l.map (fun p => (p.1, ruleCore p.2))

/-- The specification's weighted sum: over all rules, rule score times rule
weight. -/
def weightedTotal (l : List (String × ScoringRule)) : ℚ :=
  (l.map (fun p => LabValidator.scoreOf p.2.checker p.2.partial_credit * p.2.weight)).sum

/-- The specification's total weight. -/
def totalWeight (l : List (String × ScoringRule)) : ℚ :=
  (l.map (fun p => p.2.weight)).sum

/-! ### Concrete test vehicles -/

/-- A concrete tracker with one pending step `"s"`, used as a test vehicle. -/
def exTracker : LabProgress :=
  { lab_name := "Lab A", persist := false, auto_save := true,
    persist_file := ".lab_a_progress.json", session_id := "2024-01-01T10:00:00",
    student_id := "ab12cd34", previous_session_id := none, step_metadata := [],
    analytics_data := [], step_start_times := [], steps := [("s", freshStep)],
    start_time := 0, is_resumed := false }

/-- A concrete step record carrying an earlier score and notes. -/
def exStepScored : StepState := { freshStep with score := some 80, notes := "kept" }

/-- The concrete tracker with `"s"` bound to `exStepScored`. -/
def exTrackerScored : LabProgress := { exTracker with steps := [("s", exStepScored)] }

/-- The record C10's witness expects back: score erased, notes kept. -/
def exStepScoredDone : StepState :=
  { exStepScored with completed := true, timestamp := some (isoformat 3), score := none }

/-- The concrete tracker with `"s"` completed, so that `reset_step` really
mutates the registry. -/
def exTrackerDone : LabProgress :=
  { exTracker with steps := [("s", { freshStep with completed := true })] }

/-- A concrete scoring rule with everything defaulted but weight and
checker. -/
def mkRule (w : ℚ) (c : CheckerOutcome) : ScoringRule :=
  { weight := w, checker := c, description := "", partial_credit := true,
    last_score := none, last_result := none }

/-- The three-rule validator of the spec's grading example: weights
0.5/0.3/0.2, checker scores 100/0/50. -/
def exValidator : ValidatorState :=
  { scoring_rules :=
      [("r1", mkRule (1/2) (CheckerOutcome.retTuple true 100)),
       ("r2", mkRule (3/10) (CheckerOutcome.retTuple false 0)),
       ("r3", mkRule (1/5) (CheckerOutcome.retTuple true 50))],
    validation_history := [] }

/-- A validator whose first rule's checker raises and whose second returns a
full score, exercising the per-rule exception isolation. -/
def exValidatorRaises : ValidatorState :=
  { scoring_rules :=
      [("bad", mkRule (1/2) (CheckerOutcome.raises "boom")),
       ("good", mkRule (1/2) (CheckerOutcome.retTuple true 100))],
    validation_history := [] }

/-! ### Association-list lemmas -/

theorem lookupA_updateA_self {β : Type} (l : List (String × β)) (k : String)
    (f : β → β) : lookupA (updateA l k f) k = (lookupA l k).map f := by
  induction l with
  | nil => rfl
  | cons p rest ih =>
    obtain ⟨a, b⟩ := p
    simp only [updateA, List.map_cons] at ih ⊢
    by_cases h : a = k
    · subst h
      simp [lookupA, ih]
    · simp [lookupA, h, ih]

theorem updateA_keys {β : Type} (l : List (String × β)) (k : String) (f : β → β) :
    (updateA l k f).map Prod.fst = l.map Prod.fst := by
  induction l with
  | nil => rfl
  | cons p rest ih =>
    obtain ⟨a, b⟩ := p
    simp only [updateA, List.map_cons] at ih ⊢
    rw [ih]
    by_cases h : a = k
    · subst h
      simp
    · simp [h]

theorem lookupA_eq_of_mem_nodup {β : Type} {l : List (String × β)} {k : String}
    {v : β} (hm : (k, v) ∈ l) (hn : (l.map Prod.fst).Nodup) :
    lookupA l k = some v := by
  induction l with
  | nil => simp at hm
  | cons p rest ih =>
    obtain ⟨a, b⟩ := p
    rw [List.map_cons, List.nodup_cons] at hn
    rcases List.mem_cons.mp hm with h | h
    · injection h with h1 h2
      subst h1
      subst h2
      simp [lookupA]
    · have hk : a ≠ k := by
        intro he
        subst he
        exact hn.1 (List.mem_map.mpr ⟨(a, v), h, rfl⟩)
      simp [lookupA, hk]
      exact ih h hn.2

theorem lookupA_mapVal {β γ : Type} (g : β → γ) (l : List (String × β)) (n : String) :
    lookupA (l.map (fun p => (p.1, g p.2))) n = (lookupA l n).map g := by
  induction l with
  | nil => rfl
  | cons p rest ih => by_cases h : p.1 = n <;> simp [lookupA, h, ih]

/-! ### Lemmas on the grading aggregation -/

theorem lookupA_coreList (l : List (String × ScoringRule)) (n : String) :
    lookupA (coreList l) n = (lookupA l n).map ruleCore :=
  lookupA_mapVal ruleCore l n

theorem coreList_updateA (l : List (String × ScoringRule)) (k : String)
    (f : ScoringRule → ScoringRule) (hf : ∀ r, ruleCore (f r) = ruleCore r) :
    coreList (updateA l k f) = coreList l := by
  induction l with
  | nil => rfl
  | cons p rest ih =>
    by_cases h : p.1 = k <;>
      simp only [coreList, updateA, List.map_cons, if_pos, if_neg, h] at ih ⊢ <;>
      simp [ih, hf]

theorem validate_core (v : ValidatorState) (now : ℚ) (n : String) :
    coreList (LabValidator.validate_with_score v now n).1.scoring_rules
      = coreList v.scoring_rules := by
  unfold LabValidator.validate_with_score
  cases h : lookupA v.scoring_rules n with
  | none => rfl
  | some rule =>
    cases hc : rule.checker <;> simp only [hc] <;>
      exact coreList_updateA _ _ _ (fun r => rfl)

theorem validate_result (v : ValidatorState) (now : ℚ) (n : String) (r : ScoringRule)
    (h : lookupA v.scoring_rules n = some r) :
    (LabValidator.validate_with_score v now n).2.2
      = LabValidator.scoreOf r.checker r.partial_credit := by
  unfold LabValidator.validate_with_score
  rw [h]
  cases hc : r.checker <;>
    by_cases hp : r.partial_credit <;>
    simp [LabValidator.scoreOf, LabValidator.rawResult, hc, hp]

theorem grade_loop_spec (now : ℚ) (v0 : ValidatorState)
    (items : List (String × ScoringRule)) :
    ∀ (v : ValidatorState) (ts tw : ℚ),
    coreList v.scoring_rules = coreList v0.scoring_rules →
    (∀ p ∈ items, lookupA v0.scoring_rules p.1 = some p.2) →
    (LabValidator.grade_loop now items v ts tw).2.1 = ts + weightedTotal items
    ∧ (LabValidator.grade_loop now items v ts tw).2.2 = tw + totalWeight items := by
  induction items with
  | nil =>
    intro v ts tw _ _
    simp [LabValidator.grade_loop, weightedTotal, totalWeight]
  | cons p rest ih =>
    intro v ts tw hcore hmem
    obtain ⟨n, r⟩ := p
    have h0 : lookupA v0.scoring_rules n = some r := hmem (n, r) (List.mem_cons_self _ _)
    have hmap : (lookupA v.scoring_rules n).map ruleCore = some (ruleCore r) := by
      have hx := congrArg (fun l => lookupA l n) hcore
      simp only [lookupA_coreList, h0] at hx
      simpa using hx
    obtain ⟨r', hl, hcr⟩ : ∃ r', lookupA v.scoring_rules n = some r'
        ∧ ruleCore r' = ruleCore r := by
      cases hl : lookupA v.scoring_rules n with
      | none => rw [hl] at hmap; simp at hmap
      | some r' =>
        rw [hl] at hmap
        exact ⟨r', rfl, by simpa using hmap⟩
    have hscore : (LabValidator.validate_with_score v now n).2.2
        = LabValidator.scoreOf r.checker r.partial_credit := by
      rw [validate_result v now n r' hl]
      have h1 : r'.checker = r.checker := congrArg (fun c => c.2.1) hcr
      have h2 : r'.partial_credit = r.partial_credit := congrArg (fun c => c.2.2) hcr
      rw [h1, h2]
    have hcore' : coreList (LabValidator.validate_with_score v now n).1.scoring_rules
        = coreList v0.scoring_rules := (validate_core v now n).trans hcore
    have hmem' : ∀ p ∈ rest, lookupA v0.scoring_rules p.1 = some p.2 :=
      fun p hp => hmem p (List.mem_cons_of_mem _ hp)
    have hrec := ih (LabValidator.validate_with_score v now n).1
      (ts + (LabValidator.validate_with_score v now n).2.2 * r.weight)
      (tw + r.weight) hcore' hmem'
    constructor
    · simp only [LabValidator.grade_loop]
      rw [hrec.1, hscore]
      simp only [weightedTotal, List.map_cons, List.sum_cons]
      ring
    · simp only [LabValidator.grade_loop]
      rw [hrec.2]
      simp only [totalWeight, List.map_cons, List.sum_cons]
      ring

/-! ### Generic facts about the tracker operations -/

theorem reset_step_analytics (t : LabProgress) (s : String) :
    (t.reset_step s).analytics_data = t.analytics_data := by
  unfold LabProgress.reset_step
  cases lookupA t.steps s <;> rfl

theorem reset_all_analytics (t : LabProgress) :
    t.reset_all.analytics_data = t.analytics_data := by
  unfold LabProgress.reset_all
  generalize t.steps.map Prod.fst = ks
  induction ks generalizing t with
  | nil => rfl
  | cons k rest ih =>
    rw [List.foldl_cons, ih, reset_step_analytics]

/-! ### Claim theorems -/

/-- C1 (amended): `load_progress` after `save_progress` reproduces `steps`
and `student_id` exactly; the saved `session_id` is reproduced in
`_previous_session_id` while the loading tracker keeps its own
`_session_id`, and `lab_name` is left as the loading tracker's (it is only
reproduced when, as in `resume`, the loading tracker was constructed with
the saved `lab_name`). -/
theorem save_load_round_trip (t0 t : LabProgress) (now : ℚ) :
    (t0.load_progress (t.save_progress now)).steps = t.steps
    ∧ (t0.load_progress (t.save_progress now)).student_id = t.student_id
    ∧ (t0.load_progress (t.save_progress now)).previous_session_id = some t.session_id
    ∧ (t0.load_progress (t.save_progress now)).session_id = t0.session_id
    ∧ (t0.load_progress (t.save_progress now)).lab_name = t0.lab_name
    ∧ (t0.load_progress (t.save_progress now)).start_time = t.start_time
    ∧ (t0.load_progress (t.save_progress now)).analytics_data = t.analytics_data
    ∧ (t0.load_progress (t.save_progress now)).step_start_times = t.step_start_times := by
  simp [LabProgress.load_progress, LabProgress.save_progress]

/-- C1 (counterexample): saving one session and loading the file into a
tracker whose own `_session_id` differs does not reproduce the saved
`session_id`: `_load_progress` stores it in `_previous_session_id` and
leaves `_session_id` alone. -/
theorem save_load_session_id_not_reproduced :
    (LabProgress.load_progress { exTracker with session_id := "2024-02-02T09:00:00" }
        (exTracker.save_progress 0)).session_id ≠ exTracker.session_id := by
  simp [LabProgress.load_progress, LabProgress.save_progress, exTracker]

/-- C3: for a step name absent from the registry, `mark_done`,
`mark_partial` and `increment_attempts` leave the registry unchanged. -/
theorem unknown_step_ops_noop (t : LabProgress) (now : ℚ) (name : String)
    (score : Option ℚ) (notes : String) (p : ℚ) (cp : Option String)
    (h : lookupA t.steps name = none) :
    (t.mark_done now name score notes).steps = t.steps
    ∧ (t.mark_partial now name p notes cp).steps = t.steps
    ∧ (t.increment_attempts now name).steps = t.steps := by
  unfold LabProgress.mark_done LabProgress.mark_partial LabProgress.increment_attempts
  rw [h]
  exact ⟨rfl, rfl, rfl⟩

/-- C3 (witness): the concrete tracker has no step `"zz"`, and the three
operations leave its registry unchanged. -/
theorem unknown_step_ops_noop_witness :
    (exTracker.mark_done 0 "zz" none "").steps = exTracker.steps
    ∧ (exTracker.mark_partial 0 "zz" 1 "" none).steps = exTracker.steps
    ∧ (exTracker.increment_attempts 0 "zz").steps = exTracker.steps :=
  unknown_step_ops_noop exTracker 0 "zz" none "" 1 none (by
    simp [exTracker, lookupA, freshStep])

/-- C4: for a step present in the registry, `mark_partial` stores
`max 0 (min 1 p)` in its `partial_progress` field. -/
theorem mark_partial_stores_clamped (t : LabProgress) (now : ℚ) (step : String)
    (p : ℚ) (notes : String) (cp : Option String) (st : StepState)
    (h : lookupA t.steps step = some st) :
    Option.map StepState.partial_progress
        (lookupA (t.mark_partial now step p notes cp).steps step)
      = some (max 0 (min 1 p)) := by
  unfold LabProgress.mark_partial
  rw [h]
  simp only [LabProgress.record_analytics_event, lookupA_updateA_self, h,
    Option.map_some']
  split_ifs <;> rfl

/-- C4 (witness): on the concrete tracker, `mark_partial` with `p = 1.5`
stores `1.0` and with `p = -0.2` stores `0.0`. -/
theorem mark_partial_stores_clamped_witness :
    Option.map StepState.partial_progress
        (lookupA (exTracker.mark_partial 0 "s" (3/2) "" none).steps "s") = some 1
    ∧ Option.map StepState.partial_progress
        (lookupA (exTracker.mark_partial 0 "s" (-(1/5)) "" none).steps "s") = some 0 := by
  constructor
  · rw [mark_partial_stores_clamped exTracker 0 "s" (3/2) "" none freshStep
      (by simp [exTracker, lookupA])]
    norm_num
  · rw [mark_partial_stores_clamped exTracker 0 "s" (-(1/5)) "" none freshStep
      (by simp [exTracker, lookupA])]
    norm_num

/-- C5: for a step present in the registry and a non-empty checkpoint name,
`mark_partial` appends exactly one checkpoint record carrying the raw
(unclamped) input progress value and the current timestamp. -/
theorem mark_partial_checkpoint_raw (t : LabProgress) (now : ℚ) (step : String)
    (p : ℚ) (notes : String) (n : String) (st : StepState)
    (h : lookupA t.steps step = some st) (hn : n ≠ "") :
    Option.map StepState.checkpoints
        (lookupA (t.mark_partial now step p notes (some n)).steps step)
      = some (st.checkpoints ++
          [{ name := n, progress := p, timestamp := isoformat now }]) := by
  unfold LabProgress.mark_partial
  rw [h]
  have hcp : truthy (some n) = true := by simp [truthy, hn]
  simp only [LabProgress.record_analytics_event, lookupA_updateA_self, h,
    Option.map_some', hcp, eq_self_iff_true, if_true, Option.getD_some]
  split_ifs <;> rfl

/-- C5 (witness): on the concrete tracker, `mark_partial` with raw progress
`1.5` and checkpoint name `"half"` appends one checkpoint whose `progress`
is the raw `1.5` (while `partial_progress` is clamped to `1`). -/
theorem mark_partial_checkpoint_raw_witness :
    Option.map StepState.checkpoints
        (lookupA (exTracker.mark_partial 7 "s" (3/2) "" (some "half")).steps "s")
      = some [{ name := "half", progress := 3/2, timestamp := isoformat 7 }] := by
  rw [mark_partial_checkpoint_raw exTracker 7 "s" (3/2) "" "half" freshStep
    (by simp [exTracker, lookupA]) (by simp)]
  simp [freshStep]

/-- C10: for a step present in the registry, `mark_done` with empty notes
overwrites `completed`, `timestamp` and (unconditionally) `score` with the
argument — including `score = none`, which erases an earlier score — and
leaves `notes` unchanged. -/
theorem mark_done_overwrites_score (t : LabProgress) (now : ℚ) (step : String)
    (sc : Option ℚ) (st : StepState) (h : lookupA t.steps step = some st) :
    lookupA (t.mark_done now step sc "").steps step =
      some { st with completed := true, timestamp := some (isoformat now),
                     score := sc } := by
  unfold LabProgress.mark_done
  rw [h]
  simp [LabProgress.record_analytics_event, lookupA_updateA_self, h]

/-- C10 (witness): a step whose score is `80` loses it when `mark_done` is
called again with the default `score = None`; its notes survive. -/
theorem mark_done_overwrites_score_witness :
    lookupA (exTrackerScored.mark_done 3 "s" none "").steps "s" = some exStepScoredDone := by
  rw [mark_done_overwrites_score exTrackerScored 3 "s" none exStepScored
    (by simp [exTrackerScored, exTracker, lookupA])]
  rfl

/-- C8 (amended): `mark_done`, `mark_partial` and `increment_attempts` on a
known step each append exactly one timestamped event to the analytics log;
`reset_step` and `reset_all` append none; and no operation removes or
modifies an existing event (each new log extends the old one). -/
theorem analytics_append_only (t : LabProgress) (now : ℚ) (step : String)
    (sc : Option ℚ) (notes : String) (p : ℚ) (cp : Option String)
    (h : (lookupA t.steps step).isSome) :
    (∃ e, (t.mark_done now step sc notes).analytics_data = t.analytics_data ++ [e]
          ∧ e.timestamp = isoformat now)
    ∧ (∃ e, (t.mark_partial now step p notes cp).analytics_data = t.analytics_data ++ [e]
          ∧ e.timestamp = isoformat now)
    ∧ (∃ e, (t.increment_attempts now step).analytics_data = t.analytics_data ++ [e]
          ∧ e.timestamp = isoformat now)
    ∧ (t.reset_step step).analytics_data = t.analytics_data
    ∧ t.reset_all.analytics_data = t.analytics_data := by
  obtain ⟨st, hst⟩ := Option.isSome_iff_exists.mp h
  refine ⟨?_, ?_, ?_, reset_step_analytics t step, reset_all_analytics t⟩
  · unfold LabProgress.mark_done
    rw [hst]
    exact ⟨_, rfl, rfl⟩
  · unfold LabProgress.mark_partial
    rw [hst]
    exact ⟨_, rfl, rfl⟩
  · unfold LabProgress.increment_attempts
    rw [hst]
    exact ⟨_, rfl, rfl⟩

/-- C8 (witness): the amended statement at the concrete tracker. -/
theorem analytics_append_only_witness :
    (∃ e, (exTracker.mark_done 5 "s" none "").analytics_data = exTracker.analytics_data ++ [e]
          ∧ e.timestamp = isoformat 5)
    ∧ (∃ e, (exTracker.mark_partial 5 "s" (1/2) "" none).analytics_data
          = exTracker.analytics_data ++ [e] ∧ e.timestamp = isoformat 5)
    ∧ (∃ e, (exTracker.increment_attempts 5 "s").analytics_data
          = exTracker.analytics_data ++ [e] ∧ e.timestamp = isoformat 5)
    ∧ (exTracker.reset_step "s").analytics_data = exTracker.analytics_data
    ∧ exTracker.reset_all.analytics_data = exTracker.analytics_data :=
  analytics_append_only exTracker 5 "s" none "" (1/2) none
    (by simp [exTracker, lookupA])

/-- C8 (counterexample): `reset_step` on a completed step mutates the step
registry yet appends no analytics event, contradicting the claim that every
registry mutation appends at least one event. -/
theorem reset_step_no_event_counterexample :
    (exTrackerDone.reset_step "s").steps ≠ exTrackerDone.steps
    ∧ (exTrackerDone.reset_step "s").analytics_data = exTrackerDone.analytics_data := by
  constructor
  · simp [LabProgress.reset_step, exTrackerDone, exTracker, lookupA, updateA, freshStep]
  · exact reset_step_analytics exTrackerDone "s"

/-- C2 (code bug): `run_shell_sequence` on a two-command sequence whose
first command succeeds and second fails stores
`(successful_count / len(commands)) * 100 = 50` in the step's
`partial_progress` — a value far outside the `[0, 1]` range every other
writer of that field maintains (the display layer multiplies it by 100
again, and `mark_partial` clamps to `[0, 1]`). -/
theorem run_shell_sequence_unclamped :
    Option.map StepState.partial_progress
        (lookupA ((exTracker.run_shell_sequence 0 "s"
            [("c1", ShellOutcome.completed 0 "" ""), ("c2", ShellOutcome.completed 1 "" "")]
            true 30 "/w").1).steps "s")
      = some 50
    ∧ ¬ ((50 : ℚ) ≤ 1) := by
  constructor
  · simp [LabProgress.run_shell_sequence, LabProgress.seq_loop, LabProgress.run_shell_step,
      LabProgress.record_analytics_event, LabProgress.mark_done, exTracker, lookupA,
      updateA, truthy, freshStep]
    norm_num
  · norm_num

/-- C9: `resume` with neither argument fails with the no-progress-file error
when the directory glob finds nothing; `resume` with a resolved path — an
explicit (truthy) `persist_file`, or the default path derived from
`lab_name` — that does not exist on the filesystem fails with the
file-not-found error.  In all cases no tracker is returned. -/
theorem resume_error_conditions (lab_name persist_file : Option String)
    (dots : List String) (fs : FileSystem) (now : ℚ) (sid : String) :
    (¬ truthy persist_file = true → ¬ truthy lab_name = true → dots = [] →
      LabProgress.resume lab_name persist_file dots fs now sid
        = Except.error LabProgress.ResumeError.noProgressFile)
    ∧ (∀ p, persist_file = some p → truthy persist_file = true → lookupA fs p = none →
      LabProgress.resume lab_name persist_file dots fs now sid
        = Except.error (LabProgress.ResumeError.fileNotFound p))
    ∧ (∀ l, ¬ truthy persist_file = true → lab_name = some l → truthy lab_name = true →
      lookupA fs (LabProgress.defaultFile l) = none →
      LabProgress.resume lab_name persist_file dots fs now sid
        = Except.error (LabProgress.ResumeError.fileNotFound (LabProgress.defaultFile l))) := by
  refine ⟨?_, ?_, ?_⟩
  · intro hpf hln hd
    subst hd
    simp [LabProgress.resume, hpf, hln]
  · intro p hp hpf hfs
    subst hp
    simp [LabProgress.resume, hpf, hfs]
  · intro l hpf hl hln hfs
    subst hl
    simp [LabProgress.resume, hpf, hln, hfs]

/-- C9 (witness): the three failure scenarios at concrete inputs — empty
directory and no arguments; an explicit path absent from the filesystem;
a lab name whose derived default path is absent. -/
theorem resume_error_conditions_witness :
    LabProgress.resume none none [] [] 0 "ab12cd34"
      = Except.error LabProgress.ResumeError.noProgressFile
    ∧ LabProgress.resume none (some ".x_progress.json") [] [] 0 "ab12cd34"
      = Except.error (LabProgress.ResumeError.fileNotFound ".x_progress.json")
    ∧ LabProgress.resume (some "My Lab") none [] [] 0 "ab12cd34"
      = Except.error (LabProgress.ResumeError.fileNotFound (LabProgress.defaultFile "My Lab")) := by
  refine ⟨?_, ?_, ?_⟩
  · exact (resume_error_conditions none none [] [] 0 "ab12cd34").1
      (by simp [truthy]) (by simp [truthy]) rfl
  · exact (resume_error_conditions none (some ".x_progress.json") [] [] 0 "ab12cd34").2.1
      ".x_progress.json" rfl (by simp [truthy]) rfl
  · exact (resume_error_conditions (some "My Lab") none [] [] 0 "ab12cd34").2.2
      "My Lab" (by simp [truthy]) rfl (by simp [truthy]) rfl

/-- C6: with distinct rule names (Python dict keys are unique),
`run_auto_grading` returns the sum over all scoring rules of rule score
times rule weight, divided by the total weight, and `0` when the total
weight is not positive. -/
theorem run_auto_grading_weighted_average (v : ValidatorState) (now : ℚ)
    (h : (v.scoring_rules.map Prod.fst).Nodup) :
    ((LabValidator.run_auto_grading v now).2 =
      if 0 < totalWeight v.scoring_rules
      then weightedTotal v.scoring_rules / totalWeight v.scoring_rules
      else 0)
    ∧ ((∀ p ∈ v.scoring_rules, 0 ≤ p.2.weight) →
      (LabValidator.run_auto_grading v now).2 =
        if totalWeight v.scoring_rules = 0 then 0
        else weightedTotal v.scoring_rules / totalWeight v.scoring_rules) := by
  have hmem : ∀ p ∈ v.scoring_rules, lookupA v.scoring_rules p.1 = some p.2 := by
    intro p hp
    exact lookupA_eq_of_mem_nodup (by simpa using hp) h
  have hs := grade_loop_spec now v v.scoring_rules v 0 0 rfl hmem
  have hmain : (LabValidator.run_auto_grading v now).2 =
      if 0 < totalWeight v.scoring_rules
      then weightedTotal v.scoring_rules / totalWeight v.scoring_rules
      else 0 := by
    unfold LabValidator.run_auto_grading
    simp only [hs.1, hs.2, zero_add, gt_iff_lt]
  refine ⟨hmain, fun hw => ?_⟩
  have hnn : 0 ≤ totalWeight v.scoring_rules := by
    unfold totalWeight
    refine List.sum_nonneg ?_
    intro x hx
    obtain ⟨p, hp, rfl⟩ := List.mem_map.mp hx
    exact hw p hp
  rw [hmain]
  rcases lt_or_eq_of_le hnn with hlt | heq
  · rw [if_pos hlt, if_neg (by exact fun he => absurd he.symm (ne_of_lt hlt))]
  · rw [if_neg (by rw [← heq]; exact lt_irrefl 0), if_pos heq.symm]

/-- C6 (witness): the spec's example — three rules weighted 0.5/0.3/0.2
whose checkers score 100/0/50 — yields a final score of exactly 60. -/
theorem run_auto_grading_weighted_average_witness :
    (exValidator.scoring_rules.map Prod.fst).Nodup
    ∧ (LabValidator.run_auto_grading exValidator 0).2 = 60 := by
  have hn : (exValidator.scoring_rules.map Prod.fst).Nodup := by
    simp [exValidator, mkRule]
  refine ⟨hn, ?_⟩
  rw [(run_auto_grading_weighted_average exValidator 0 hn).1]
  rw [if_pos]
  · simp [weightedTotal, totalWeight, exValidator, mkRule, LabValidator.scoreOf,
      LabValidator.rawResult]
    norm_num
  · simp [totalWeight, exValidator, mkRule]
    norm_num

/-- C7: a scoring rule whose checker raises is isolated: the exception is
caught, `last_score = 0` and `last_result = False` are recorded for that
rule, `(False, 0)` is returned (no history entry is appended), and the
grading loop continues over the remaining rules, still counting the failed
rule's weight. -/
theorem checker_exception_isolated (v : ValidatorState) (now : ℚ) (n : String)
    (r : ScoringRule) (msg : String) (h : lookupA v.scoring_rules n = some r)
    (hc : r.checker = CheckerOutcome.raises msg) :
    (LabValidator.validate_with_score v now n).2 = (false, 0)
    ∧ lookupA (LabValidator.validate_with_score v now n).1.scoring_rules n
        = some { r with last_score := some 0, last_result := some false }
    ∧ (LabValidator.validate_with_score v now n).1.validation_history
        = v.validation_history
    ∧ ∀ rest ts tw, LabValidator.grade_loop now ((n, r) :: rest) v ts tw
        = LabValidator.grade_loop now rest
            (LabValidator.validate_with_score v now n).1 ts (tw + r.weight) := by
  have hv : LabValidator.validate_with_score v now n
      = ({ v with scoring_rules := updateA v.scoring_rules n (fun r0 =>
            { r0 with last_score := some 0, last_result := some false }) },
         false, 0) := by
    unfold LabValidator.validate_with_score
    rw [h]
    simp only [hc]
  refine ⟨by rw [hv], ?_, by rw [hv], ?_⟩
  · rw [hv]
    simp [lookupA_updateA_self, h]
  · intro rest ts tw
    simp only [LabValidator.grade_loop]
    rw [hv]
    norm_num

/-- C7 (witness): in the two-rule validator whose first checker raises,
validating the bad rule returns `(False, 0)`, records score 0 / failure on
that rule, appends no history, and the grading loop proceeds to the good
rule with the bad rule's weight still counted. -/
theorem checker_exception_isolated_witness :
    (LabValidator.validate_with_score exValidatorRaises 0 "bad").2 = (false, 0)
    ∧ lookupA (LabValidator.validate_with_score exValidatorRaises 0 "bad").1.scoring_rules "bad"
        = some { mkRule (1/2) (CheckerOutcome.raises "boom") with
                 last_score := some 0, last_result := some false }
    ∧ (LabValidator.validate_with_score exValidatorRaises 0 "bad").1.validation_history
        = exValidatorRaises.validation_history
    ∧ LabValidator.grade_loop 0 exValidatorRaises.scoring_rules exValidatorRaises 0 0
        = LabValidator.grade_loop 0 [("good", mkRule (1/2) (CheckerOutcome.retTuple true 100))]
            (LabValidator.validate_with_score exValidatorRaises 0 "bad").1 0
            (0 + (mkRule (1/2) (CheckerOutcome.raises "boom")).weight) := by
  have ht := checker_exception_isolated exValidatorRaises 0 "bad"
    (mkRule (1/2) (CheckerOutcome.raises "boom")) "boom"
    (by simp [exValidatorRaises, lookupA]) rfl
  exact ⟨ht.1, ht.2.1, ht.2.2.1,
    ht.2.2.2 [("good", mkRule (1/2) (CheckerOutcome.retTuple true 100))] 0 0⟩

end JLab
